import Mathlib

/-!
Shallow embedding of the socket-aware layout and connection-routing core of
the `iced-node-editor` widget library (sources: `node.rs`, `connection.rs`,
`node_element.rs`).

Machine `f32` arithmetic is embedded as exact rational arithmetic (`ℚ`); the
host float primitives `f32::sqrt` / `f32::powf` appear as explicit function
parameters (`sq`, `pw`) so that theorems state their numeric assumptions at
exactly the values where they are evaluated.  Rust panics (including failed
`assert!`s and slice-index panics) are embedded as `Except String` errors.
-/

/-- 2D vector / point with rational coordinates, embedding `iced::Vector`
and `iced::Point` (both `f32` pairs in the source). -/
structure Vec where
  x : ℚ
  y : ℚ
deriving DecidableEq, Repr

instance : Add Vec := ⟨fun a b => ⟨a.x + b.x, a.y + b.y⟩⟩
instance : Sub Vec := ⟨fun a b => ⟨a.x - b.x, a.y - b.y⟩⟩

/-- Scalar multiplication `v * s` (Rust `Vector * f32`). -/
def Vec.scale (v : Vec) (s : ℚ) : Vec := ⟨v.x * s, v.y * s⟩

@[simp] theorem Vec.add_def (a b : Vec) : a + b = ⟨a.x + b.x, a.y + b.y⟩ := rfl
@[simp] theorem Vec.sub_def (a b : Vec) : a - b = ⟨a.x - b.x, a.y - b.y⟩ := rfl

/-- Embedding of `iced::Rectangle` (position plus size). -/
structure Rect where
  x : ℚ
  y : ℚ
  width : ℚ
  height : ℚ
deriving DecidableEq, Repr

/-- `iced::Rectangle::center_x`. -/
def Rect.center_x (r : Rect) : ℚ := r.x + r.width / 2

/-- `iced::Rectangle::center_y`. -/
def Rect.center_y (r : Rect) : ℚ := r.y + r.height / 2

/-- `iced::Rectangle + Vector` translation. -/
def Rect.addVec (r : Rect) (v : Vec) : Rect :=
  ⟨r.x + v.x, r.y + v.y, r.width, r.height⟩

/-- `iced::Rectangle::contains` (half-open on the far edges). -/
def Rect.contains (r : Rect) (p : Vec) : Bool :=
  decide (r.x ≤ p.x) && decide (p.x < r.x + r.width) &&
  decide (r.y ≤ p.y) && decide (p.y < r.y + r.height)

/-- `SocketRole` from `node.rs`. -/
inductive SocketRole where
  | In
  | Out
deriving DecidableEq, Repr

/-- `SocketSide` from `node.rs`. -/
inductive SocketSide where
  | Left
  | Right
deriving DecidableEq, Repr

/-- `SocketLayoutState` from `node_element.rs`: the shared per-frame state
holding, per role, one list of blob rectangles per already-laid-out node,
plus the `done` phase flag. -/
structure SocketLayoutState where
  inputs : List (List Rect)
  outputs : List (List Rect)
  done : Bool
deriving DecidableEq, Repr

/-- `SocketLayoutState::clear` from `node_element.rs`. -/
def SocketLayoutState.clear (_st : SocketLayoutState) : SocketLayoutState :=
  ⟨[], [], false⟩

/-- `LogicalEndpoint` from `connection.rs`. -/
structure LogicalEndpoint where
  node_index : ℕ
  role : SocketRole
  socket_index : ℕ
deriving DecidableEq, Repr

/-- `Endpoint` from `connection.rs`. -/
inductive Endpoint where
  | Absolute (point : Vec)
  | Socket (logical : LogicalEndpoint)
deriving DecidableEq, Repr

/-- The per-role sequence selected by `Endpoint::resolve`
(`SocketRole::In => &socket_state.inputs`, `SocketRole::Out => &socket_state.outputs`). -/
def SocketLayoutState.roleList (st : SocketLayoutState) : SocketRole → List (List Rect)
  | SocketRole.In => st.inputs
  | SocketRole.Out => st.outputs

/-- `Endpoint::resolve` from `connection.rs`: an absolute endpoint is scaled;
a logical endpoint is looked up in the shared state and yields the recorded
rectangle's center; a failed lookup is a panic (embedded as `.error`). -/
def Endpoint.resolve (e : Endpoint) (scale : ℚ) (socket_state : SocketLayoutState) :
    Except String Vec :=
  match e with
  | Endpoint.Absolute point => Except.ok ⟨point.x * scale, point.y * scale⟩
  | Endpoint.Socket logical =>
    let node_sockets := socket_state.roleList logical.role
    match node_sockets[logical.node_index]? with
    | some sockets =>
      match sockets[logical.socket_index]? with
      | some rect => Except.ok ⟨rect.center_x, rect.center_y⟩
      | none => Except.error "socket index out of bounds"
    | none => Except.error "node index out of bounds"

/-- `Link` from `connection.rs` (`end` renamed `end_`: Lean keyword). -/
structure Link where
  start : Endpoint
  end_ : Endpoint
deriving DecidableEq, Repr

/-- `Link::new` from `connection.rs`: asserts that a logical start endpoint
has role `Out` and a logical end endpoint has role `In`; a failed `assert!`
is a panic (embedded as `.error`). -/
def Link.new (start end_ : Endpoint) : Except String Link :=
  match start with
  | Endpoint.Socket l_start =>
    if l_start.role = SocketRole.Out then
      match end_ with
      | Endpoint.Socket l_end =>
        if l_end.role = SocketRole.In then Except.ok ⟨start, end_⟩
        else Except.error "assertion failed: l_end.role == SocketRole::In"
      | Endpoint.Absolute _ => Except.ok ⟨start, end_⟩
    else Except.error "assertion failed: l_start.role == SocketRole::Out"
  | Endpoint.Absolute _ =>
    match end_ with
    | Endpoint.Socket l_end =>
      if l_end.role = SocketRole.In then Except.ok ⟨start, end_⟩
      else Except.error "assertion failed: l_end.role == SocketRole::In"
    | Endpoint.Absolute _ => Except.ok ⟨start, end_⟩

/-- `Link::from_unordered` from `connection.rs`: orders two endpoints so that
a logical start is an `Out` socket and a logical end an `In` socket; two
logical endpoints with the same role panic. -/
def Link.from_unordered (e1 e2 : Endpoint) : Except String Link :=
  match e1 with
  | Endpoint.Absolute _ =>
    match e2 with
    | Endpoint.Absolute _ => Link.new e1 e2
    | Endpoint.Socket l2 =>
      match l2.role with
      | SocketRole.In => Link.new e1 e2
      | SocketRole.Out => Link.new e2 e1
  | Endpoint.Socket l1 =>
    match e2 with
    | Endpoint.Socket l2 =>
      if l1.role = l2.role then
        Except.error "tried to order two logical endpoints with same role"
      else
        match l1.role with
        | SocketRole.In => Link.new e2 e1
        | SocketRole.Out => Link.new e1 e2
    | Endpoint.Absolute _ =>
      match l1.role with
      | SocketRole.In => Link.new e2 e1
      | SocketRole.Out => Link.new e1 e2

/-- `Socket` from `node.rs`, restricted to the fields that determine the
published blob geometry.  `content_height` stands for the height of the
socket's laid-out content element: laying out child widgets is done by the
host toolkit, an external collaborator, so its result enters the model as
data. -/
structure Socket where
  role : SocketRole
  blob_side : SocketSide
  blob_radius : ℚ
  content_height : ℚ
deriving DecidableEq, Repr

/-- `Socket::blob_rect` from `node.rs`. -/
def Socket.blob_rect (s : Socket) (node_left node_width center_y : ℚ) : Rect :=
  let x := match s.blob_side with
    | SocketSide.Left => node_left
    | SocketSide.Right => node_left + node_width
  ⟨x - s.blob_radius, center_y - s.blob_radius, s.blob_radius * 2, s.blob_radius * 2⟩

/-- `Node` from `node.rs`, restricted to the fields read by
`<Node as ScalableWidget>::layout`.  `content_frame_width`/`content_frame_height`
stand for `limits.resolve(content.size())` and `padding_*` for
`self.padding.fit(..)`: both are produced by the host toolkit's layout
engine (an external collaborator), so their results enter the model as
data. -/
structure NodeModel where
  sockets : List Socket
  socket_spacing : ℚ
  position : Vec
  content_frame_width : ℚ
  content_frame_height : ℚ
  padding_top : ℚ
  padding_bottom : ℚ
  padding_left : ℚ
  padding_right : ℚ
deriving DecidableEq, Repr

/-- The socket loop of `<Node as ScalableWidget>::layout` (`node.rs`):
walks the sockets in order, stacking each below the previous one, computes
each socket's blob rectangle translated by the node's scaled world position,
and collects the `In` and `Out` blobs in per-node order.  Returns
`(in_sockets, out_sockets, final socket_top)`. -/
def socket_walk (nd : NodeModel) (scale : ℚ) :
    List Socket → ℚ → List Rect × List Rect × ℚ
  | [], socket_top => ([], [], socket_top)
  | socket :: rest, socket_top =>
    let socket_top := socket_top + nd.socket_spacing * scale
    let socket_content_height_scaled := socket.content_height * scale
    let blob_rect :=
      (socket.blob_rect 0 (nd.content_frame_width * scale)
        (nd.padding_top + socket_top + socket_content_height_scaled / 2)).addVec
        (Vec.scale nd.position scale)
    let (ins, outs, top) :=
      socket_walk nd scale rest (socket_top + socket_content_height_scaled)
    match socket.role with
    | SocketRole.In => (blob_rect :: ins, outs, top)
    | SocketRole.Out => (ins, blob_rect :: outs, top)

/-- Size of a laid-out box (`iced::Size`). -/
structure SizeQ where
  width : ℚ
  height : ℚ
deriving DecidableEq, Repr

/-- `<Node as ScalableWidget>::layout` from `node.rs`: panics if the shared
state's `done` flag is already set; otherwise walks the sockets, appends the
collected `In`/`Out` blob rectangles as one new entry at the end of each of
the shared state's two sequences, and returns the node's total scaled size.
Child layout calls are external (see `NodeModel`). -/
def node_layout (nd : NodeModel) (scale : ℚ) (socket_state : SocketLayoutState) :
    Except String (SocketLayoutState × SizeQ) :=
  if socket_state.done then
    Except.error "the graph content must consist of nodes, then connections; it is not allowed to have (more) nodes after the connections"
  else
    let content_available_height :=
      nd.content_frame_height * scale - nd.padding_top - nd.padding_bottom
    let (in_sockets, out_sockets, socket_top) :=
      socket_walk nd scale nd.sockets content_available_height
    let total_size : SizeQ :=
      ⟨nd.content_frame_width * scale, nd.padding_top + socket_top + nd.padding_bottom⟩
    Except.ok
      (⟨socket_state.inputs ++ [in_sockets],
        socket_state.outputs ++ [out_sockets],
        socket_state.done⟩,
       total_size)

/-- The vertical stacking scan of the socket loop in
`<Node as ScalableWidget>::layout`: pairs each socket, in per-node order,
with the `socket_top` value (spacing already added) at which its row is
placed. -/
def socket_tops (nd : NodeModel) (scale : ℚ) : List Socket → ℚ → List (Socket × ℚ)
  | [], _ => []
  | socket :: rest, socket_top =>
    let socket_top := socket_top + nd.socket_spacing * scale
    (socket, socket_top) ::
      socket_tops nd scale rest (socket_top + socket.content_height * scale)

/-- The blob rectangle a socket publishes when its row sits at the given
`socket_top` (second component): `Socket::blob_rect` anchored on the scaled
node width, vertically centered on the socket row, translated by the scaled
node position (`node.rs`, lines 280-284). -/
def blob_of (nd : NodeModel) (scale : ℚ) (p : Socket × ℚ) : Rect :=
  (p.1.blob_rect 0 (nd.content_frame_width * scale)
    (nd.padding_top + p.2 + p.1.content_height * scale / 2)).addVec
    (Vec.scale nd.position scale)

/-- `dot_vector` from `connection.rs`. -/
def dot_vector (vector other : Vec) : ℚ :=
  vector.x * other.x + vector.y * other.y

/-- `normalize_vector` from `connection.rs`.  `sq` is the host `f32::sqrt`
primitive, passed explicitly (see the file header). -/
def normalize_vector (sq : ℚ → ℚ) (vector : Vec) : Vec :=
  let length := sq (vector.x * vector.x + vector.y * vector.y)
  if length = 0 then ⟨0, 0⟩ else ⟨vector.x / length, vector.y / length⟩

/-- `get_t` from `connection.rs`.  `pw` is the host `f32::powf` primitive,
passed explicitly; the source computes `(d·d).powf(alpha * 0.5) + t`. -/
def get_t (pw : ℚ → ℚ → ℚ) (t alpha : ℚ) (p0 p1 : Vec) : ℚ :=
  let d := p1 - p0
  let a := dot_vector d d
  let b := pw a (alpha * (1 / 2))
  b + t

/-- `catmull_rom` from `connection.rs` (centripetal Catmull-Rom sample at
parameter `t ∈ [0,1]` between `p1` and `p2`). -/
def catmull_rom (pw : ℚ → ℚ → ℚ) (p0 p1 p2 p3 : Vec) (t alpha : ℚ) : Vec :=
  let t0 : ℚ := 0
  let t1 := get_t pw t0 alpha p0 p1
  let t2 := get_t pw t1 alpha p1 p2
  let t3 := get_t pw t2 alpha p2 p3
  let t := t1 + (t2 - t1) * t
  let a1 := (p0.scale ((t1 - t) / (t1 - t0))) + (p1.scale ((t - t0) / (t1 - t0)))
  let a2 := (p1.scale ((t2 - t) / (t2 - t1))) + (p2.scale ((t - t1) / (t2 - t1)))
  let a3 := (p2.scale ((t3 - t) / (t3 - t2))) + (p3.scale ((t - t2) / (t3 - t2)))
  let b1 := (a1.scale ((t2 - t) / (t2 - t0))) + (a2.scale ((t - t0) / (t2 - t0)))
  let b2 := (a2.scale ((t3 - t) / (t3 - t1))) + (a3.scale ((t - t1) / (t3 - t1)))
  (b1.scale ((t2 - t) / (t2 - t1))) + (b2.scale ((t - t1) / (t2 - t1)))

/-- `generate_spline` from `connection.rs`: samples the Catmull-Rom curve at
`t = i / (number_of_segments - 1)` for `i = 0, …, number_of_segments - 1`,
with two synthetic control points horizontally offset by `control_scale`.
There is no check on `number_of_segments`; the subtraction is the source's
`usize` subtraction (never evaluated when the range is empty). -/
def generate_spline (pw : ℚ → ℚ → ℚ) (from_ : Vec) (control_scale : ℚ) (to_ : Vec)
    (number_of_segments : ℕ) (alpha : ℚ) : List Vec :=
  (List.range number_of_segments).map fun (i : ℕ) =>
    let t : ℚ := (i : ℚ) / ((number_of_segments - 1 : ℕ) : ℚ)
    catmull_rom pw
      ⟨from_.x - control_scale, from_.y⟩ from_ to_ ⟨to_.x + control_scale, to_.y⟩
      t alpha

/-- The loop body of `line_to_polygon` from `connection.rs`: for each
consecutive pair `(last, point)` emits the four offset vertices and the six
indices of the two triangles (`start = result.len() - 4` in the source is
`base` here, threaded explicitly). -/
def polygon_segments (sq : ℚ → ℚ) (width : ℚ) :
    Vec → List Vec → ℕ → List Vec × List ℕ
  | _, [], _ => ([], [])
  | last, point :: rest, base =>
    let dir := normalize_vector sq (point - last)
    let normal : Vec := ⟨dir.y, -dir.x⟩
    let verts := [last + normal.scale width, point + normal.scale width,
                  point - normal.scale width, last - normal.scale width]
    let idxs := [base, base + 1, base + 2, base, base + 2, base + 3]
    let (rv, ri) := polygon_segments sq width point rest (base + 4)
    (verts ++ rv, idxs ++ ri)

/-- `line_to_polygon` from `connection.rs`: reads `points[0]` unconditionally
(a panic on an empty slice, embedded as `none`), then walks the remaining
points emitting one quad per consecutive pair. -/
def line_to_polygon (sq : ℚ → ℚ) (points : List Vec) (width : ℚ) :
    Option (List Vec × List ℕ) :=
  match points with
  | [] => none
  | p0 :: rest => some (polygon_segments sq width p0 rest 0)

/-- `bounds_for_vectors` from `connection.rs`: reads `points[0]`
unconditionally (a panic on an empty slice, embedded as `none`) and folds
min/max over the rest. -/
def bounds_for_vectors (points : List Vec) : Option Rect :=
  match points with
  | [] => none
  | p0 :: rest =>
    let mm := rest.foldl
      (fun (acc : ℚ × ℚ × ℚ × ℚ) (point : Vec) =>
        let (min_x, min_y, max_x, max_y) := acc
        (if point.x < min_x then point.x else min_x,
         if point.y < min_y then point.y else min_y,
         if point.x > max_x then point.x else max_x,
         if point.y > max_y then point.y else max_y))
      (p0.x, p0.y, p0.x, p0.y)
    some ⟨mm.1, mm.2.1, mm.2.2.1 - mm.1, mm.2.2.2 - mm.2.1⟩

/-- `Connection` from `connection.rs`, restricted to the fields read by
`<Connection as ScalableWidget>::layout` (the style and the cached spline
mutex cell are omitted; the cache contents appear in `ConnLayout`). -/
structure ConnModel where
  link : Link
  width : ℚ
  number_of_segments : ℕ
deriving DecidableEq, Repr

/-- `Connection::new` from `connection.rs` (defaults: width `1.2`,
`number_of_segments` 20). -/
def ConnModel.new (link : Link) : ConnModel :=
  ⟨link, 6 / 5, 20⟩

/-- The result of one connection layout call: the freshly written spline
cache (samples relative to the spline's bounding box origin), the layout
node's size, and its translation. -/
structure ConnLayout where
  spline : List Vec
  size_w : ℤ
  size_h : ℤ
  translation : Vec
deriving DecidableEq, Repr

/-- `<Connection as ScalableWidget>::layout` from `connection.rs`: sets the
shared state's `done` flag first, resolves both endpoints of the link,
generates the spline, computes its bounding box (`points[0]` panics when the
spline is empty), rebases the samples to the box origin, stores them in the
cache, and returns a node of the ceiled padded size translated to the box
origin. -/
def connection_layout (pw : ℚ → ℚ → ℚ) (c : ConnModel) (scale : ℚ)
    (socket_state : SocketLayoutState) :
    Except String (SocketLayoutState × ConnLayout) :=
  let socket_state : SocketLayoutState :=
    ⟨socket_state.inputs, socket_state.outputs, true⟩
  match c.link.start.resolve scale socket_state with
  | Except.error msg => Except.error msg
  | Except.ok p_start =>
    match c.link.end_.resolve scale socket_state with
    | Except.error msg => Except.error msg
    | Except.ok p_end =>
      let spline := generate_spline pw p_start 1 p_end c.number_of_segments 1
      match bounds_for_vectors spline with
      | none => Except.error "index out of bounds: the len is 0 but the index is 0"
      | some spline_bounds =>
        let spline := spline.map fun p =>
          Vec.mk (p.x - spline_bounds.x) (p.y - spline_bounds.y)
        Except.ok
          (socket_state,
           ⟨spline,
            Int.ceil (spline_bounds.width + c.width),
            Int.ceil (spline_bounds.height + c.width),
            ⟨spline_bounds.x, spline_bounds.y⟩⟩)

/-- The two element kinds held by the graph container's ordered child list
(design note §9: a closed tagged variant). -/
inductive GraphElement where
  | node (nd : NodeModel)
  | connection (c : ConnModel)

/-- Modelled from the spec: `graph_container.rs` (the Graph Container /
Layout Orchestrator, §4.6) is not among the sources.  Per §4.6 the
orchestrator invokes each element's scalable `layout` in sequence at the
current scale, threading the shared socket state through the traversal; the
per-element layout functions themselves (`node_layout`,
`connection_layout`) are embedded from `node.rs` / `connection.rs`. -/
def layout_pass (pw : ℚ → ℚ → ℚ) (scale : ℚ) :
    List GraphElement → SocketLayoutState → Except String SocketLayoutState
  | [], st => Except.ok st
  | GraphElement.node nd :: rest, st =>
    match node_layout nd scale st with
    | Except.error msg => Except.error msg
    | Except.ok (st', _) => layout_pass pw scale rest st'
  | GraphElement.connection c :: rest, st =>
    match connection_layout pw c scale st with
    | Except.error msg => Except.error msg
    | Except.ok (st', _) => layout_pass pw scale rest st'

/-- The pointer events distinguished by `Node::on_event` (`node.rs`); every
other event is `other`. -/
inductive NodeEvent where
  | buttonPressedLeft
  | buttonReleasedLeft
  | cursorMoved
  | other
deriving DecidableEq, Repr

/-- `iced::event::Status`. -/
inductive EventStatus where
  | ignored
  | captured
deriving DecidableEq, Repr

/-- `Node::on_event` from `node.rs`.  `has_on_translate` is whether an
`on_translate` callback is installed; the returned message list holds the
raw deltas passed to that callback.  `child_status` is the aggregated
status of offering the event to the content and socket children (external
widgets), consulted only while no drag is active.  Returns the new
`drag_start_position`, the published deltas, and the event status. -/
def node_on_event (has_on_translate : Bool) (drag_start_position : Option Vec)
    (event : NodeEvent) (cursor : Option Vec) (bounds : Rect)
    (child_status : EventStatus) : Option Vec × List Vec × EventStatus :=
  let s0 : Option Vec × List Vec × EventStatus :=
    match cursor with
    | none => (drag_start_position, [], EventStatus.ignored)
    | some cursor_position =>
      match drag_start_position with
      | some start =>
        match event with
        | NodeEvent.buttonReleasedLeft => (none, [], EventStatus.ignored)
        | NodeEvent.cursorMoved =>
          (some cursor_position,
           if has_on_translate then [cursor_position - start] else [],
           EventStatus.captured)
        | _ => (drag_start_position, [], EventStatus.ignored)
      | none => (drag_start_position, [], child_status)
  match cursor with
  | some cursor_position =>
    if s0.2.2 = EventStatus.ignored ∧ bounds.contains cursor_position = true ∧
        event = NodeEvent.buttonPressedLeft then
      (some cursor_position, s0.2.1, EventStatus.captured)
    else s0
  | none => s0

/-- Helper: `Link.new` succeeds exactly when the role asserts hold, and then
returns the pair unchanged. -/
theorem Link.new_ok {e1 e2 : Endpoint} {l : Link}
    (h : Link.new e1 e2 = Except.ok l) :
    l = ⟨e1, e2⟩ ∧
    (∀ le, e1 = Endpoint.Socket le → le.role = SocketRole.Out) ∧
    (∀ le, e2 = Endpoint.Socket le → le.role = SocketRole.In) := by
  cases e1 with
  | Absolute p1 =>
    cases e2 with
    | Absolute p2 =>
      simp [Link.new] at h
      exact ⟨h.symm, by simp, by simp⟩
    | Socket l2 =>
      by_cases h2 : l2.role = SocketRole.In
      · simp [Link.new, h2] at h
        refine ⟨h.symm, by simp, ?_⟩
        intro le hle
        cases hle
        exact h2
      · simp [Link.new, h2] at h
  | Socket l1 =>
    by_cases h1 : l1.role = SocketRole.Out
    · cases e2 with
      | Absolute p2 =>
        simp [Link.new, h1] at h
        refine ⟨h.symm, ?_, by simp⟩
        intro le hle
        cases hle
        exact h1
      | Socket l2 =>
        by_cases h2 : l2.role = SocketRole.In
        · simp [Link.new, h1, h2] at h
          refine ⟨h.symm, ?_, ?_⟩
          · intro le hle
            cases hle
            exact h1
          · intro le hle
            cases hle
            exact h2
        · simp [Link.new, h1, h2] at h
    · simp [Link.new, h1] at h

/-- C4: `Link::from_unordered` canonicalizes any pair of endpoints so that a
logical start has role `Out` and a logical end has role `In`; an `Out`
socket paired with an absolute point becomes (start = socket, end = point);
two logical endpoints of the same role fail with a panic. -/
theorem link_from_unordered_spec :
    (∀ (e1 e2 : Endpoint) (l : Link), Link.from_unordered e1 e2 = Except.ok l →
      (∀ le, l.start = Endpoint.Socket le → le.role = SocketRole.Out) ∧
      (∀ le, l.end_ = Endpoint.Socket le → le.role = SocketRole.In))
    ∧ (∀ (le : LogicalEndpoint) (p : Vec), le.role = SocketRole.Out →
        Link.from_unordered (Endpoint.Socket le) (Endpoint.Absolute p) =
          Except.ok ⟨Endpoint.Socket le, Endpoint.Absolute p⟩)
    ∧ (∀ l1 l2 : LogicalEndpoint, l1.role = l2.role →
        ∃ msg, Link.from_unordered (Endpoint.Socket l1) (Endpoint.Socket l2) =
          Except.error msg) := by
  refine ⟨?_, ?_, ?_⟩
  · intro e1 e2 l h
    cases e1 with
    | Absolute p1 =>
      cases e2 with
      | Absolute p2 =>
        have h' : Link.new (Endpoint.Absolute p1) (Endpoint.Absolute p2) = Except.ok l := by
          simpa [Link.from_unordered] using h
        obtain ⟨rfl, h1, h2⟩ := Link.new_ok h'
        exact ⟨h1, h2⟩
      | Socket l2 =>
        cases hr : l2.role with
        | In =>
          have h' : Link.new (Endpoint.Absolute p1) (Endpoint.Socket l2) = Except.ok l := by
            simpa [Link.from_unordered, hr] using h
          obtain ⟨rfl, h1, h2⟩ := Link.new_ok h'
          exact ⟨h1, h2⟩
        | Out =>
          have h' : Link.new (Endpoint.Socket l2) (Endpoint.Absolute p1) = Except.ok l := by
            simpa [Link.from_unordered, hr] using h
          obtain ⟨rfl, h1, h2⟩ := Link.new_ok h'
          exact ⟨h1, h2⟩
    | Socket l1 =>
      cases e2 with
      | Absolute p2 =>
        cases hr : l1.role with
        | In =>
          have h' : Link.new (Endpoint.Absolute p2) (Endpoint.Socket l1) = Except.ok l := by
            simpa [Link.from_unordered, hr] using h
          obtain ⟨rfl, h1, h2⟩ := Link.new_ok h'
          exact ⟨h1, h2⟩
        | Out =>
          have h' : Link.new (Endpoint.Socket l1) (Endpoint.Absolute p2) = Except.ok l := by
            simpa [Link.from_unordered, hr] using h
          obtain ⟨rfl, h1, h2⟩ := Link.new_ok h'
          exact ⟨h1, h2⟩
      | Socket l2 =>
        by_cases hsame : l1.role = l2.role
        · simp [Link.from_unordered, hsame] at h
        · cases hr : l1.role with
          | In =>
            have hne : ¬(SocketRole.In = l2.role) := fun hh => hsame (by rw [hr, hh])
            have h' : Link.new (Endpoint.Socket l2) (Endpoint.Socket l1) = Except.ok l := by
              simpa [Link.from_unordered, hr, hne] using h
            obtain ⟨rfl, h1, h2⟩ := Link.new_ok h'
            exact ⟨h1, h2⟩
          | Out =>
            have hne : ¬(SocketRole.Out = l2.role) := fun hh => hsame (by rw [hr, hh])
            have h' : Link.new (Endpoint.Socket l1) (Endpoint.Socket l2) = Except.ok l := by
              simpa [Link.from_unordered, hr, hne] using h
            obtain ⟨rfl, h1, h2⟩ := Link.new_ok h'
            exact ⟨h1, h2⟩
  · intro le p hrole
    simp [Link.from_unordered, hrole, Link.new]
  · intro l1 l2 hsame
    refine ⟨"tried to order two logical endpoints with same role", ?_⟩
    simp [Link.from_unordered, hsame]

/-- C4 witness: a concrete `Out` socket with a concrete absolute endpoint
canonicalizes as claimed, and two `Out` sockets fail. -/
theorem link_from_unordered_spec_witness :
    ((⟨0, SocketRole.Out, 1⟩ : LogicalEndpoint).role = SocketRole.Out ∧
      Link.from_unordered (Endpoint.Socket ⟨0, SocketRole.Out, 1⟩)
          (Endpoint.Absolute ⟨3, 4⟩) =
        Except.ok ⟨Endpoint.Socket ⟨0, SocketRole.Out, 1⟩, Endpoint.Absolute ⟨3, 4⟩⟩) ∧
    ((⟨0, SocketRole.Out, 0⟩ : LogicalEndpoint).role =
        (⟨1, SocketRole.Out, 2⟩ : LogicalEndpoint).role ∧
      ∃ msg, Link.from_unordered (Endpoint.Socket ⟨0, SocketRole.Out, 0⟩)
          (Endpoint.Socket ⟨1, SocketRole.Out, 2⟩) = Except.error msg) :=
  ⟨⟨rfl, link_from_unordered_spec.2.1 ⟨0, SocketRole.Out, 1⟩ ⟨3, 4⟩ rfl⟩,
   ⟨rfl, link_from_unordered_spec.2.2 ⟨0, SocketRole.Out, 0⟩ ⟨1, SocketRole.Out, 2⟩ rfl⟩⟩

/-- C3: resolving an absolute endpoint returns the point scaled; resolving
an in-bounds logical endpoint returns the center of the recorded rectangle
`socket_state[role][node_index][socket_index]`; resolution fails (panics)
exactly when `node_index` or `socket_index` exceeds the recorded counts for
that role. -/
theorem endpoint_resolve_spec :
    (∀ (p : Vec) (scale : ℚ) (st : SocketLayoutState),
      Endpoint.resolve (Endpoint.Absolute p) scale st =
        Except.ok ⟨p.x * scale, p.y * scale⟩)
    ∧ (∀ (le : LogicalEndpoint) (scale : ℚ) (st : SocketLayoutState)
        (sockets : List Rect) (rect : Rect),
        (st.roleList le.role)[le.node_index]? = some sockets →
        sockets[le.socket_index]? = some rect →
        Endpoint.resolve (Endpoint.Socket le) scale st =
          Except.ok ⟨rect.center_x, rect.center_y⟩)
    ∧ (∀ (le : LogicalEndpoint) (scale : ℚ) (st : SocketLayoutState),
        (∃ msg, Endpoint.resolve (Endpoint.Socket le) scale st = Except.error msg) ↔
          ((st.roleList le.role).length ≤ le.node_index ∨
            ∃ sockets, (st.roleList le.role)[le.node_index]? = some sockets ∧
              sockets.length ≤ le.socket_index)) := by
  refine ⟨fun p scale st => rfl, ?_, ?_⟩
  · intro le scale st sockets rect h1 h2
    simp [Endpoint.resolve, h1, h2]
  · intro le scale st
    cases h1 : (st.roleList le.role)[le.node_index]? with
    | none =>
      have hlen : (st.roleList le.role).length ≤ le.node_index := by
        simpa using List.getElem?_eq_none_iff.mp h1
      constructor
      · intro _
        exact Or.inl hlen
      · intro _
        exact ⟨"node index out of bounds", by simp [Endpoint.resolve, h1]⟩
    | some sockets =>
      have hlt : le.node_index < (st.roleList le.role).length := by
        by_contra hge
        rw [List.getElem?_eq_none_iff.mpr (Nat.le_of_not_lt hge)] at h1
        exact Option.noConfusion h1
      cases h2 : sockets[le.socket_index]? with
      | none =>
        have hlen2 : sockets.length ≤ le.socket_index := by
          simpa using List.getElem?_eq_none_iff.mp h2
        constructor
        · intro _
          exact Or.inr ⟨sockets, rfl, hlen2⟩
        · intro _
          exact ⟨"socket index out of bounds", by simp [Endpoint.resolve, h1, h2]⟩
      | some rect =>
        have hlt2 : le.socket_index < sockets.length := by
          by_contra hge
          rw [List.getElem?_eq_none_iff.mpr (Nat.le_of_not_lt hge)] at h2
          exact Option.noConfusion h2
        constructor
        · rintro ⟨msg, hmsg⟩
          simp [Endpoint.resolve, h1, h2] at hmsg
        · rintro (hge | ⟨sockets', hs', hge⟩)
          · exact absurd hlt (Nat.not_lt_of_le hge)
          · cases hs'
            exact absurd hlt2 (Nat.not_lt_of_le hge)

/-- C3 witness: a concrete state with one recorded `Out` rectangle; the
in-bounds lookup returns its center, and the out-of-bounds lookup on the
`In` side fails. -/
theorem endpoint_resolve_spec_witness :
    ((⟨[], [[⟨0, 0, 10, 20⟩]], false⟩ : SocketLayoutState).roleList
        (⟨0, SocketRole.Out, 0⟩ : LogicalEndpoint).role)[
          (⟨0, SocketRole.Out, 0⟩ : LogicalEndpoint).node_index]? =
        some [⟨0, 0, 10, 20⟩] ∧
    ([(⟨0, 0, 10, 20⟩ : Rect)])[
        (⟨0, SocketRole.Out, 0⟩ : LogicalEndpoint).socket_index]? =
        some ⟨0, 0, 10, 20⟩ ∧
    Endpoint.resolve (Endpoint.Socket ⟨0, SocketRole.Out, 0⟩) 2
        ⟨[], [[⟨0, 0, 10, 20⟩]], false⟩ =
      Except.ok ⟨(⟨0, 0, 10, 20⟩ : Rect).center_x, (⟨0, 0, 10, 20⟩ : Rect).center_y⟩ :=
  ⟨rfl, rfl,
   endpoint_resolve_spec.2.1 ⟨0, SocketRole.Out, 0⟩ 2 ⟨[], [[⟨0, 0, 10, 20⟩]], false⟩
     [⟨0, 0, 10, 20⟩] ⟨0, 0, 10, 20⟩ rfl rfl⟩

/-- Helper: the socket walk collects exactly one blob rectangle per `In`
socket and one per `Out` socket, in order. -/
theorem socket_walk_lengths (nd : NodeModel) (scale : ℚ) :
    ∀ (ss : List Socket) (top : ℚ),
      (socket_walk nd scale ss top).1.length =
        ss.countP (fun s => decide (s.role = SocketRole.In)) ∧
      (socket_walk nd scale ss top).2.1.length =
        ss.countP (fun s => decide (s.role = SocketRole.Out)) := by
  intro ss
  induction ss with
  | nil => intro top; simp [socket_walk]
  | cons s rest ih =>
    intro top
    have ih' := ih (top + nd.socket_spacing * scale + s.content_height * scale)
    cases hr : s.role <;>
      simp [socket_walk, hr, List.countP_cons, ih'.1, ih'.2, Nat.add_comm]

/-- Helper: the two lists collected by the socket walk are exactly the blob
rectangles of the `In`-role (resp. `Out`-role) sockets, in per-node order,
each at its stacked vertical position. -/
theorem socket_walk_eq (nd : NodeModel) (scale : ℚ) :
    ∀ (ss : List Socket) (top : ℚ),
      (socket_walk nd scale ss top).1 =
        ((socket_tops nd scale ss top).filter
          (fun p => decide (p.1.role = SocketRole.In))).map (blob_of nd scale) ∧
      (socket_walk nd scale ss top).2.1 =
        ((socket_tops nd scale ss top).filter
          (fun p => decide (p.1.role = SocketRole.Out))).map (blob_of nd scale) := by
  intro ss
  induction ss with
  | nil => intro top; simp [socket_walk, socket_tops]
  | cons s rest ih =>
    intro top
    have ih' := ih (top + nd.socket_spacing * scale + s.content_height * scale)
    cases hr : s.role <;>
      simp [socket_walk, socket_tops, blob_of, hr, ih'.1, ih'.2, List.filter_cons]

/-- C2: a successful node layout appends exactly one new entry at the end of
the shared state's `inputs` — the blob rectangles of the node's `In`-role
sockets, in the node's own socket order, each at its stacked vertical
position — and one at the end of `outputs` (likewise for the `Out`-role
sockets), with one rectangle per socket of the respective role, leaving all
previously recorded entries and the `done` flag unchanged. -/
theorem node_layout_appends_spec :
    ∀ (nd : NodeModel) (scale : ℚ) (st : SocketLayoutState), st.done = false →
      ∃ res, node_layout nd scale st = Except.ok res ∧
        ∃ ins outs,
          res.1.inputs = st.inputs ++ [ins] ∧
          res.1.outputs = st.outputs ++ [outs] ∧
          ins = ((socket_tops nd scale nd.sockets
                   (nd.content_frame_height * scale - nd.padding_top - nd.padding_bottom)).filter
                 (fun p => decide (p.1.role = SocketRole.In))).map (blob_of nd scale) ∧
          outs = ((socket_tops nd scale nd.sockets
                   (nd.content_frame_height * scale - nd.padding_top - nd.padding_bottom)).filter
                 (fun p => decide (p.1.role = SocketRole.Out))).map (blob_of nd scale) ∧
          ins.length = nd.sockets.countP (fun s => decide (s.role = SocketRole.In)) ∧
          outs.length = nd.sockets.countP (fun s => decide (s.role = SocketRole.Out)) ∧
          res.1.done = st.done := by
  intro nd scale st hdone
  have hw := socket_walk_lengths nd scale nd.sockets
    (nd.content_frame_height * scale - nd.padding_top - nd.padding_bottom)
  have hwe := socket_walk_eq nd scale nd.sockets
    (nd.content_frame_height * scale - nd.padding_top - nd.padding_bottom)
  refine ⟨(⟨st.inputs ++ [(socket_walk nd scale nd.sockets
              (nd.content_frame_height * scale - nd.padding_top - nd.padding_bottom)).1],
           st.outputs ++ [(socket_walk nd scale nd.sockets
              (nd.content_frame_height * scale - nd.padding_top - nd.padding_bottom)).2.1],
           st.done⟩,
          ⟨nd.content_frame_width * scale,
           nd.padding_top + (socket_walk nd scale nd.sockets
              (nd.content_frame_height * scale - nd.padding_top - nd.padding_bottom)).2.2 +
             nd.padding_bottom⟩),
         ?_, _, _, rfl, rfl, hwe.1, hwe.2, hw.1, hw.2, rfl⟩
  simp [node_layout, hdone]

/-- C2 witness: a node with two `In` sockets and one `Out` socket appends one
length-2 entry to `inputs` and one length-1 entry to `outputs`, each holding
the ordered blob rectangles of the respective role. -/
theorem node_layout_appends_spec_witness :
    (⟨[[⟨0, 0, 1, 1⟩]], [], false⟩ : SocketLayoutState).done = false ∧
    ∃ res,
      node_layout
          ⟨[⟨SocketRole.In, SocketSide.Left, 5, 10⟩,
            ⟨SocketRole.Out, SocketSide.Right, 5, 12⟩,
            ⟨SocketRole.In, SocketSide.Left, 5, 14⟩], 2, ⟨3, 4⟩, 50, 30, 1, 1, 1, 1⟩
          1 ⟨[[⟨0, 0, 1, 1⟩]], [], false⟩ = Except.ok res ∧
      ∃ ins outs,
        res.1.inputs = [[⟨0, 0, 1, 1⟩]] ++ [ins] ∧
        res.1.outputs = [] ++ [outs] ∧
        ins = ((socket_tops
                 ⟨[⟨SocketRole.In, SocketSide.Left, 5, 10⟩,
                   ⟨SocketRole.Out, SocketSide.Right, 5, 12⟩,
                   ⟨SocketRole.In, SocketSide.Left, 5, 14⟩], 2, ⟨3, 4⟩, 50, 30, 1, 1, 1, 1⟩ 1
                 [⟨SocketRole.In, SocketSide.Left, 5, 10⟩,
                  ⟨SocketRole.Out, SocketSide.Right, 5, 12⟩,
                  ⟨SocketRole.In, SocketSide.Left, 5, 14⟩]
                 ((30 : ℚ) * 1 - 1 - 1)).filter
               (fun p => decide (p.1.role = SocketRole.In))).map
              (blob_of
                ⟨[⟨SocketRole.In, SocketSide.Left, 5, 10⟩,
                  ⟨SocketRole.Out, SocketSide.Right, 5, 12⟩,
                  ⟨SocketRole.In, SocketSide.Left, 5, 14⟩], 2, ⟨3, 4⟩, 50, 30, 1, 1, 1, 1⟩ 1) ∧
        outs = ((socket_tops
                 ⟨[⟨SocketRole.In, SocketSide.Left, 5, 10⟩,
                   ⟨SocketRole.Out, SocketSide.Right, 5, 12⟩,
                   ⟨SocketRole.In, SocketSide.Left, 5, 14⟩], 2, ⟨3, 4⟩, 50, 30, 1, 1, 1, 1⟩ 1
                 [⟨SocketRole.In, SocketSide.Left, 5, 10⟩,
                  ⟨SocketRole.Out, SocketSide.Right, 5, 12⟩,
                  ⟨SocketRole.In, SocketSide.Left, 5, 14⟩]
                 ((30 : ℚ) * 1 - 1 - 1)).filter
               (fun p => decide (p.1.role = SocketRole.Out))).map
              (blob_of
                ⟨[⟨SocketRole.In, SocketSide.Left, 5, 10⟩,
                  ⟨SocketRole.Out, SocketSide.Right, 5, 12⟩,
                  ⟨SocketRole.In, SocketSide.Left, 5, 14⟩], 2, ⟨3, 4⟩, 50, 30, 1, 1, 1, 1⟩ 1) ∧
        ins.length =
          List.countP (fun s => decide (s.role = SocketRole.In))
            ([⟨SocketRole.In, SocketSide.Left, 5, 10⟩,
              ⟨SocketRole.Out, SocketSide.Right, 5, 12⟩,
              ⟨SocketRole.In, SocketSide.Left, 5, 14⟩] : List Socket) ∧
        outs.length =
          List.countP (fun s => decide (s.role = SocketRole.Out))
            ([⟨SocketRole.In, SocketSide.Left, 5, 10⟩,
              ⟨SocketRole.Out, SocketSide.Right, 5, 12⟩,
              ⟨SocketRole.In, SocketSide.Left, 5, 14⟩] : List Socket) ∧
        res.1.done = (⟨[[⟨0, 0, 1, 1⟩]], [], false⟩ : SocketLayoutState).done :=
  ⟨rfl,
   node_layout_appends_spec
     ⟨[⟨SocketRole.In, SocketSide.Left, 5, 10⟩,
       ⟨SocketRole.Out, SocketSide.Right, 5, 12⟩,
       ⟨SocketRole.In, SocketSide.Left, 5, 14⟩], 2, ⟨3, 4⟩, 50, 30, 1, 1, 1, 1⟩
     1 ⟨[[⟨0, 0, 1, 1⟩]], [], false⟩ rfl⟩

/-- C1: laying out a connection sets the shared state's `done` flag; laying
out a node with `done` already set raises the hard ordering error; a layout
pass made only of nodes succeeds and leaves `done` false. -/
theorem two_pass_ordering_spec :
    (∀ (pw : ℚ → ℚ → ℚ) (c : ConnModel) (scale : ℚ) (st : SocketLayoutState)
        (r : SocketLayoutState × ConnLayout),
      connection_layout pw c scale st = Except.ok r → r.1.done = true)
    ∧ (∀ (nd : NodeModel) (scale : ℚ) (st : SocketLayoutState),
      st.done = true → ∃ msg, node_layout nd scale st = Except.error msg)
    ∧ (∀ (pw : ℚ → ℚ → ℚ) (scale : ℚ) (elems : List GraphElement)
        (st : SocketLayoutState),
      (∀ e ∈ elems, ∃ nd, e = GraphElement.node nd) → st.done = false →
      ∃ st', layout_pass pw scale elems st = Except.ok st' ∧ st'.done = false) := by
  refine ⟨?_, ?_, ?_⟩
  · intro pw c scale st r h
    simp only [connection_layout] at h
    split at h
    · exact Except.noConfusion h
    · split at h
      · exact Except.noConfusion h
      · split at h
        · exact Except.noConfusion h
        · cases h
          rfl
  · intro nd scale st hdone
    refine ⟨"the graph content must consist of nodes, then connections; it is not allowed to have (more) nodes after the connections", ?_⟩
    simp [node_layout, hdone]
  · intro pw scale elems
    induction elems with
    | nil =>
      intro st _ hdone
      exact ⟨st, rfl, hdone⟩
    | cons e rest ih =>
      intro st hnodes hdone
      obtain ⟨nd, rfl⟩ := hnodes e (List.mem_cons_self e rest)
      have hrest : ∀ e ∈ rest, ∃ nd, e = GraphElement.node nd :=
        fun e he => hnodes e (List.mem_cons_of_mem _ he)
      obtain ⟨st', hst', hdone'⟩ :=
        ih (⟨st.inputs ++ [(socket_walk nd scale nd.sockets
              (nd.content_frame_height * scale - nd.padding_top - nd.padding_bottom)).1],
            st.outputs ++ [(socket_walk nd scale nd.sockets
              (nd.content_frame_height * scale - nd.padding_top - nd.padding_bottom)).2.1],
            st.done⟩) hrest (by simpa using hdone)
      refine ⟨st', ?_, hdone'⟩
      have hlay : node_layout nd scale st =
          Except.ok
            (⟨st.inputs ++ [(socket_walk nd scale nd.sockets
                (nd.content_frame_height * scale - nd.padding_top - nd.padding_bottom)).1],
              st.outputs ++ [(socket_walk nd scale nd.sockets
                (nd.content_frame_height * scale - nd.padding_top - nd.padding_bottom)).2.1],
              st.done⟩,
             ⟨nd.content_frame_width * scale,
              nd.padding_top + (socket_walk nd scale nd.sockets
                (nd.content_frame_height * scale - nd.padding_top - nd.padding_bottom)).2.2 +
                nd.padding_bottom⟩) := by
        simp [node_layout, hdone]
      simpa [layout_pass, hlay] using hst'

/-- C1 witness: a concrete connection layout sets `done`; a concrete node
layout with `done` set errors; a nodes-only pass succeeds with `done`
false. -/
theorem two_pass_ordering_spec_witness :
    (∃ r, connection_layout (fun _ _ => 0)
        ⟨⟨Endpoint.Absolute ⟨0, 0⟩, Endpoint.Absolute ⟨1, 1⟩⟩, 1, 2⟩ 1
        ⟨[], [], false⟩ = Except.ok r ∧ r.1.done = true)
    ∧ ((⟨[], [], true⟩ : SocketLayoutState).done = true ∧
      ∃ msg, node_layout ⟨[], 0, ⟨0, 0⟩, 0, 0, 0, 0, 0, 0⟩ 1 ⟨[], [], true⟩ =
        Except.error msg)
    ∧ ((∀ e ∈ [GraphElement.node ⟨[], 0, ⟨0, 0⟩, 0, 0, 0, 0, 0, 0⟩],
          ∃ nd, e = GraphElement.node nd) ∧
      (⟨[], [], false⟩ : SocketLayoutState).done = false ∧
      ∃ st', layout_pass (fun _ _ => 0) 1
          [GraphElement.node ⟨[], 0, ⟨0, 0⟩, 0, 0, 0, 0, 0, 0⟩] ⟨[], [], false⟩ =
          Except.ok st' ∧ st'.done = false) := by
  have hr : connection_layout (fun _ _ => 0)
      ⟨⟨Endpoint.Absolute ⟨0, 0⟩, Endpoint.Absolute ⟨1, 1⟩⟩, 1, 2⟩ 1
      ⟨[], [], false⟩ =
      Except.ok (⟨[], [], true⟩, ⟨[⟨0, 0⟩, ⟨0, 0⟩], 1, 1, ⟨0, 0⟩⟩) := by
    norm_num [connection_layout, Endpoint.resolve, generate_spline, catmull_rom,
      get_t, dot_vector, Vec.scale, bounds_for_vectors, List.range_succ]
  have hmem : ∀ e ∈ [GraphElement.node (⟨[], 0, ⟨0, 0⟩, 0, 0, 0, 0, 0, 0⟩ : NodeModel)],
      ∃ nd, e = GraphElement.node nd := by
    intro e he
    simp at he
    exact ⟨_, he⟩
  exact ⟨⟨_, hr, two_pass_ordering_spec.1 _ _ _ _ _ hr⟩,
         ⟨rfl, two_pass_ordering_spec.2.1 ⟨[], 0, ⟨0, 0⟩, 0, 0, 0, 0, 0, 0⟩ 1
            ⟨[], [], true⟩ rfl⟩,
         ⟨hmem, rfl, two_pass_ordering_spec.2.2 (fun _ _ => 0) 1 _ _ hmem rfl⟩⟩

/-- C9 (amended): while the drag anchor is set, a pointer-move emits the raw
screen-space delta `current − anchor` (no zoom scaling happens inside the
node), updates the anchor to the current cursor position and captures the
event; a left-button release clears the anchor (and is not captured). -/
theorem node_drag_move_spec :
    ∀ (anchor cpos : Vec) (bounds : Rect) (cs : EventStatus),
      node_on_event true (some anchor) NodeEvent.cursorMoved (some cpos) bounds cs =
        (some cpos, [cpos - anchor], EventStatus.captured) ∧
      node_on_event true (some anchor) NodeEvent.buttonReleasedLeft (some cpos) bounds cs =
        (none, [], EventStatus.ignored) := by
  intro anchor cpos bounds cs
  constructor <;> simp [node_on_event]

/-- C9 counterexample: the claim that the emitted delta is
`(current − anchor)` scaled by the inverse of the current zoom is false: at
zoom 2, anchor `(0,0)`, cursor `(10,0)` the node emits `(10,0)`, not
`(5,0)` — the delta is independent of the zoom. -/
theorem node_drag_zoom_claim_false :
    ¬ ∀ zoom : ℚ, 0 < zoom →
      (node_on_event true (some ⟨0, 0⟩) NodeEvent.cursorMoved (some ⟨10, 0⟩)
          ⟨0, 0, 100, 100⟩ EventStatus.ignored).2.1 =
        [⟨(10 - 0) * (1 / zoom), (0 - 0) * (1 / zoom)⟩] := by
  intro h
  have h2 := h 2 (by norm_num)
  simp [node_on_event] at h2

/-- Helper: per consecutive pair the polygon builder emits 4 vertices and 6
indices, and every index lands in `[base, base + 4*(number of pairs))`. -/
theorem polygon_segments_counts (sq : ℚ → ℚ) (w : ℚ) :
    ∀ (rest : List Vec) (last : Vec) (base : ℕ),
      (polygon_segments sq w last rest base).1.length = 4 * rest.length ∧
      (polygon_segments sq w last rest base).2.length = 6 * rest.length ∧
      ∀ i ∈ (polygon_segments sq w last rest base).2,
        base ≤ i ∧ i < base + 4 * rest.length := by
  intro rest
  induction rest with
  | nil =>
    intro last base
    simp [polygon_segments]
  | cons p ps ih =>
    intro last base
    have ihp := ih p (base + 4)
    refine ⟨?_, ?_, ?_⟩
    · simp only [polygon_segments, List.length_append, List.length_cons]
      rw [ihp.1]
      simp [Nat.mul_succ]
      omega
    · simp only [polygon_segments, List.length_append, List.length_cons]
      rw [ihp.2.1]
      simp [Nat.mul_succ]
      omega
    · intro i hi
      simp only [polygon_segments, List.mem_append, List.mem_cons,
        List.not_mem_nil, or_false] at hi
      rcases hi with hcase | hmem
      · simp only [List.length_cons, Nat.mul_succ]
        omega
      · have := ihp.2.2 i hmem
        simp only [List.length_cons, Nat.mul_succ]
        omega

/-- C7: on any polyline of `n ≥ 2` points the polygon builder emits exactly
`4*(n-1)` vertices and `6*(n-1)` indices (4 vertices and 2 triangles per
consecutive pair), every index referring into the emitted vertex buffer;
on a straight 2-point polyline of length `L` the 4 vertices form a
rectangle with sides `L` and `2*w` (`w` the half-width: opposite sides
equal, adjacent sides orthogonal, side lengths `L` and `2w`). -/
theorem line_to_polygon_spec :
    (∀ (sq : ℚ → ℚ) (w : ℚ) (p0 : Vec) (rest : List Vec),
      ∃ verts idxs, line_to_polygon sq (p0 :: rest) w = some (verts, idxs) ∧
        verts.length = 4 * rest.length ∧
        idxs.length = 6 * rest.length ∧
        ∀ i ∈ idxs, i < verts.length)
    ∧ (∀ (sq : ℚ → ℚ) (w L : ℚ) (p1 p2 : Vec),
      sq (dot_vector (p2 - p1) (p2 - p1)) = L →
      L * L = dot_vector (p2 - p1) (p2 - p1) →
      0 < L →
      ∃ v0 v1 v2 v3,
        line_to_polygon sq [p1, p2] w =
          some ([v0, v1, v2, v3], [0, 1, 2, 0, 2, 3]) ∧
        v1 - v0 = p2 - p1 ∧
        v2 - v1 = v3 - v0 ∧
        dot_vector (v1 - v0) (v3 - v0) = 0 ∧
        dot_vector (v1 - v0) (v1 - v0) = L * L ∧
        dot_vector (v3 - v0) (v3 - v0) = (2 * w) * (2 * w)) := by
  constructor
  · intro sq w p0 rest
    have h := polygon_segments_counts sq w rest p0 0
    refine ⟨(polygon_segments sq w p0 rest 0).1, (polygon_segments sq w p0 rest 0).2,
      rfl, h.1, h.2.1, ?_⟩
    intro i hi
    have := h.2.2 i hi
    rw [h.1]
    omega
  · intro sq w L p1 p2 hsq hL hpos
    have hL0 : L ≠ 0 := ne_of_gt hpos
    have hlen : sq ((p2.x - p1.x) * (p2.x - p1.x) + (p2.y - p1.y) * (p2.y - p1.y)) = L := by
      simpa [dot_vector] using hsq
    have hexp : (p2.x - p1.x) * (p2.x - p1.x) + (p2.y - p1.y) * (p2.y - p1.y) = L * L := by
      rw [hL]
      simp [dot_vector]
    have hnorm : normalize_vector sq ⟨p2.x - p1.x, p2.y - p1.y⟩ =
        ⟨(p2.x - p1.x) / L, (p2.y - p1.y) / L⟩ := by
      simp only [normalize_vector, hlen]
      rw [if_neg hL0]
    refine ⟨p1 + (Vec.mk ((p2.y - p1.y) / L) (-((p2.x - p1.x) / L))).scale w,
            p2 + (Vec.mk ((p2.y - p1.y) / L) (-((p2.x - p1.x) / L))).scale w,
            p2 - (Vec.mk ((p2.y - p1.y) / L) (-((p2.x - p1.x) / L))).scale w,
            p1 - (Vec.mk ((p2.y - p1.y) / L) (-((p2.x - p1.x) / L))).scale w,
            ?_, ?_, ?_, ?_, ?_, ?_⟩
    · simp only [line_to_polygon, polygon_segments, Vec.sub_def, hnorm]
      norm_num
    · simp only [Vec.sub_def, Vec.add_def, Vec.scale, Vec.mk.injEq]
      constructor <;> ring
    · simp only [Vec.sub_def, Vec.add_def, Vec.scale, Vec.mk.injEq]
      constructor <;> ring
    · simp only [dot_vector, Vec.sub_def, Vec.add_def, Vec.scale]
      field_simp
      ring
    · simp only [dot_vector, Vec.sub_def, Vec.add_def, Vec.scale]
      linear_combination hexp
    · simp only [dot_vector, Vec.sub_def, Vec.add_def, Vec.scale]
      field_simp
      linear_combination (4 * w * w) * hexp

/-- C7 witness: the 2-point polyline `(0,0) → (3,4)` (length 5) with
half-width 1 yields the 4-vertex, 6-index rectangle. -/
theorem line_to_polygon_spec_witness :
    ((fun q => if q = 25 then (5 : ℚ) else 0)
        (dot_vector ((⟨3, 4⟩ : Vec) - ⟨0, 0⟩) ((⟨3, 4⟩ : Vec) - ⟨0, 0⟩)) = 5) ∧
    ((5 : ℚ) * 5 = dot_vector ((⟨3, 4⟩ : Vec) - ⟨0, 0⟩) ((⟨3, 4⟩ : Vec) - ⟨0, 0⟩)) ∧
    ((0 : ℚ) < 5) ∧
    ∃ v0 v1 v2 v3,
      line_to_polygon (fun q => if q = 25 then (5 : ℚ) else 0) [⟨0, 0⟩, ⟨3, 4⟩] 1 =
        some ([v0, v1, v2, v3], [0, 1, 2, 0, 2, 3]) ∧
      v1 - v0 = (⟨3, 4⟩ : Vec) - ⟨0, 0⟩ ∧
      v2 - v1 = v3 - v0 ∧
      dot_vector (v1 - v0) (v3 - v0) = 0 ∧
      dot_vector (v1 - v0) (v1 - v0) = 5 * 5 ∧
      dot_vector (v3 - v0) (v3 - v0) = (2 * 1) * (2 * 1) :=
  ⟨by norm_num [dot_vector], by norm_num [dot_vector], by norm_num,
   line_to_polygon_spec.2 (fun q => if q = 25 then (5 : ℚ) else 0) 1 5 ⟨0, 0⟩ ⟨3, 4⟩
     (by norm_num [dot_vector]) (by norm_num [dot_vector]) (by norm_num)⟩

/-- C8: the polygon builder never fails on a non-empty polyline, and a
zero-length segment (two coincident consecutive points) yields a zero-width
quad: 4 coincident vertices (the direction normalized to the zero vector)
and 2 degenerate triangles. -/
theorem zero_length_segment_spec :
    (∀ (sq : ℚ → ℚ) (w : ℚ) (p0 : Vec) (rest : List Vec),
      ∃ r, line_to_polygon sq (p0 :: rest) w = some r)
    ∧ (∀ (sq : ℚ → ℚ) (w : ℚ) (q : Vec) (ps : List Vec) (base : ℕ),
      sq 0 = 0 →
      polygon_segments sq w q (q :: ps) base =
        ([q, q, q, q] ++ (polygon_segments sq w q ps (base + 4)).1,
         [base, base + 1, base + 2, base, base + 2, base + 3] ++
           (polygon_segments sq w q ps (base + 4)).2)) := by
  constructor
  · intro sq w p0 rest
    exact ⟨_, rfl⟩
  · intro sq w q ps base h0
    have hnorm : normalize_vector sq (q - q) = ⟨0, 0⟩ := by
      simp [normalize_vector, h0]
    simp only [polygon_segments, hnorm]
    simp [Vec.scale]

/-- C8 witness: a concrete polyline with a coincident pair emits four copies
of the point. -/
theorem zero_length_segment_spec_witness :
    ((fun _ => (0 : ℚ)) 0 = 0) ∧
    polygon_segments (fun _ => (0 : ℚ)) 1 ⟨2, 3⟩ [⟨2, 3⟩] 0 =
      ([⟨2, 3⟩, ⟨2, 3⟩, ⟨2, 3⟩, ⟨2, 3⟩] ++ (polygon_segments (fun _ => (0 : ℚ)) 1 ⟨2, 3⟩ [] 4).1,
       [0, 1, 2, 0, 2, 3] ++ (polygon_segments (fun _ => (0 : ℚ)) 1 ⟨2, 3⟩ [] 4).2) :=
  ⟨rfl, zero_length_segment_spec.2 (fun _ => 0) 1 ⟨2, 3⟩ [] 0 rfl⟩

/-- Helper: at the concrete control points of the C5 scenario the
centripetal Catmull-Rom sample is exactly linear, `(100*t, 0)`. -/
theorem catmull_rom_linear (pw : ℚ → ℚ → ℚ) (h1 : pw 1 (1 / 2) = 1)
    (h2 : pw 10000 (1 / 2) = 100) (t : ℚ) :
    catmull_rom pw ⟨-1, 0⟩ ⟨0, 0⟩ ⟨100, 0⟩ ⟨101, 0⟩ t 1 = ⟨100 * t, 0⟩ := by
  norm_num [catmull_rom, get_t, dot_vector, Vec.scale, Vec.mk.injEq, h1, h2]
  ring

/-- Helper: under the two `powf` facts the concrete 20-segment spline is the
exactly-linear sample list. -/
theorem generate_spline_concrete (pw : ℚ → ℚ → ℚ) (h1 : pw 1 (1 / 2) = 1)
    (h2 : pw 10000 (1 / 2) = 100) :
    generate_spline pw ⟨0, 0⟩ 1 ⟨100, 0⟩ 20 1 =
      (List.range 20).map fun i => ⟨100 * ((i : ℚ) / 19), 0⟩ := by
  simp only [generate_spline]
  refine List.map_congr_left ?_
  intro i _
  have h19 : (((20 - 1 : ℕ) : ℚ)) = 19 := by norm_num
  have hc := catmull_rom_linear pw h1 h2 ((i : ℚ) / 19)
  have hv1 : (⟨(⟨0, 0⟩ : Vec).x - 1, (⟨0, 0⟩ : Vec).y⟩ : Vec) = ⟨-1, 0⟩ := by
    norm_num
  have hv2 : (⟨(⟨100, 0⟩ : Vec).x + 1, (⟨100, 0⟩ : Vec).y⟩ : Vec) = ⟨101, 0⟩ := by
    norm_num
  rw [h19, hv1, hv2, hc]

/-- C5: spline generation returns exactly `n` samples for every requested
`n ≥ 2`; in the concrete case `(0,0) → (100,0)`, 20 segments, control scale
1, α 1 (using the host `powf` values at the two evaluated inputs), the
first sample is exactly the from point, the last exactly the to point, and
the samples' x coordinates increase strictly monotonically. -/
theorem generate_spline_spec :
    (∀ (pw : ℚ → ℚ → ℚ) (from_ : Vec) (cs : ℚ) (to_ : Vec) (n : ℕ) (alpha : ℚ),
      2 ≤ n → (generate_spline pw from_ cs to_ n alpha).length = n)
    ∧ (∀ pw : ℚ → ℚ → ℚ, pw 1 (1 / 2) = 1 → pw 10000 (1 / 2) = 100 →
      (generate_spline pw ⟨0, 0⟩ 1 ⟨100, 0⟩ 20 1).head? = some ⟨0, 0⟩ ∧
      (generate_spline pw ⟨0, 0⟩ 1 ⟨100, 0⟩ 20 1).getLast? = some ⟨100, 0⟩ ∧
      List.Chain' (fun a b : Vec => a.x < b.x)
        (generate_spline pw ⟨0, 0⟩ 1 ⟨100, 0⟩ 20 1)) := by
  constructor
  · intro pw from_ cs to_ n alpha _
    simp [generate_spline]
  · intro pw h1 h2
    rw [generate_spline_concrete pw h1 h2]
    refine ⟨?_, ?_, ?_⟩
    · rw [List.head?_eq_getElem?, List.getElem?_map]
      norm_num
    · rw [List.getLast?_eq_getElem?, List.length_map, List.length_range,
        List.getElem?_map]
      norm_num
    · rw [List.chain'_map]
      rw [show (20 : ℕ) = 19 + 1 by norm_num, List.chain'_range_succ]
      intro m hm
      simp only
      push_cast
      have hlt : (m : ℚ) < (m : ℚ) + 1 := by linarith
      have hdiv : (m : ℚ) / 19 < ((m : ℚ) + 1) / 19 :=
        (div_lt_div_iff_of_pos_right (by norm_num : (0 : ℚ) < 19)).mpr hlt
      exact mul_lt_mul_of_pos_left hdiv (by norm_num)

/-- C5 witness: with the exact-sqrt table for the two evaluated `powf`
inputs, the concrete 20-segment spline has 20 samples, exact endpoints and
strictly increasing x. -/
theorem generate_spline_spec_witness :
    ((2 : ℕ) ≤ 20 ∧
      (generate_spline (fun a _ => if a = 10000 then (100 : ℚ) else 1)
        ⟨0, 0⟩ 1 ⟨100, 0⟩ 20 1).length = 20) ∧
    ((fun a (_ : ℚ) => if a = 10000 then (100 : ℚ) else 1) 1 (1 / 2) = 1 ∧
     (fun a (_ : ℚ) => if a = 10000 then (100 : ℚ) else 1) 10000 (1 / 2) = 100 ∧
     ((generate_spline (fun a _ => if a = 10000 then (100 : ℚ) else 1)
          ⟨0, 0⟩ 1 ⟨100, 0⟩ 20 1).head? = some ⟨0, 0⟩ ∧
      (generate_spline (fun a _ => if a = 10000 then (100 : ℚ) else 1)
          ⟨0, 0⟩ 1 ⟨100, 0⟩ 20 1).getLast? = some ⟨100, 0⟩ ∧
      List.Chain' (fun a b : Vec => a.x < b.x)
        (generate_spline (fun a _ => if a = 10000 then (100 : ℚ) else 1)
          ⟨0, 0⟩ 1 ⟨100, 0⟩ 20 1))) :=
  ⟨⟨by norm_num,
    generate_spline_spec.1 _ ⟨0, 0⟩ 1 ⟨100, 0⟩ 20 1 (by norm_num)⟩,
   by norm_num,
   by norm_num,
   generate_spline_spec.2 _ (by norm_num) (by norm_num)⟩

/-- C6: `generate_spline` performs no up-front check on
`number_of_segments`: requested with 1 segment it still computes and
returns one sample (whose parameter is the `0/0` division) instead of
failing, and with 0 segments it silently returns the empty list. -/
theorem generate_spline_no_reject :
    ∀ (pw : ℚ → ℚ → ℚ) (from_ : Vec) (cs : ℚ) (to_ : Vec) (alpha : ℚ),
      (generate_spline pw from_ cs to_ 1 alpha).length = 1 ∧
      generate_spline pw from_ cs to_ 0 alpha = [] := by
  intro pw from_ cs to_ alpha
  constructor <;> simp [generate_spline]

/-- C10: with both endpoints resolvable, a connection configured with 0
segments panics during layout (the spline is empty and the bounding-box
computation reads its first element), while every segment count `n ≥ 1`
yields a non-empty spline and a successful layout. -/
theorem connection_layout_segments_spec :
    ∀ (pw : ℚ → ℚ → ℚ) (link : Link) (w scale : ℚ) (st : SocketLayoutState)
      (p q : Vec),
      link.start.resolve scale ⟨st.inputs, st.outputs, true⟩ = Except.ok p →
      link.end_.resolve scale ⟨st.inputs, st.outputs, true⟩ = Except.ok q →
      ((∃ msg, connection_layout pw ⟨link, w, 0⟩ scale st = Except.error msg) ∧
       generate_spline pw p 1 q 0 1 = [] ∧
       bounds_for_vectors ([] : List Vec) = none ∧
       ∀ n : ℕ, 1 ≤ n →
         ∃ r, connection_layout pw ⟨link, w, n⟩ scale st = Except.ok r) := by
  intro pw link w scale st p q hs he
  have hempty : generate_spline pw p 1 q 0 1 = [] := by simp [generate_spline]
  refine ⟨⟨"index out of bounds: the len is 0 but the index is 0", ?_⟩, hempty, rfl, ?_⟩
  · simp only [connection_layout, hs, he, hempty]
    rfl
  · intro n hn
    have hlen : (generate_spline pw p 1 q n 1).length = n := by
      simp [generate_spline]
    have hne : generate_spline pw p 1 q n 1 ≠ [] := by
      intro hnil
      rw [hnil] at hlen
      simp at hlen
      omega
    obtain ⟨p0, rest, hcons⟩ := List.exists_cons_of_ne_nil hne
    have hb : ∃ b, bounds_for_vectors (generate_spline pw p 1 q n 1) = some b := by
      rw [hcons]
      exact ⟨_, rfl⟩
    obtain ⟨b, hb⟩ := hb
    refine ⟨(⟨st.inputs, st.outputs, true⟩,
             ⟨(generate_spline pw p 1 q n 1).map fun pt => ⟨pt.x - b.x, pt.y - b.y⟩,
              Int.ceil (b.width + w), Int.ceil (b.height + w), ⟨b.x, b.y⟩⟩), ?_⟩
    simp only [connection_layout, hs, he, hb]

/-- C10 witness: a 0-segment connection between two absolute endpoints
panics; 1-segment and 20-segment configurations succeed. -/
theorem connection_layout_segments_spec_witness :
    ((Endpoint.Absolute ⟨0, 0⟩ : Endpoint).resolve 1 ⟨[], [], true⟩ =
        Except.ok ⟨0, 0⟩) ∧
    ((Endpoint.Absolute ⟨2, 3⟩ : Endpoint).resolve 1 ⟨[], [], true⟩ =
        Except.ok ⟨2, 3⟩) ∧
    ((∃ msg, connection_layout (fun _ _ => 0)
        ⟨⟨Endpoint.Absolute ⟨0, 0⟩, Endpoint.Absolute ⟨2, 3⟩⟩, 1, 0⟩ 1
        ⟨[], [], false⟩ = Except.error msg) ∧
     generate_spline (fun _ _ => 0) ⟨0, 0⟩ 1 ⟨2, 3⟩ 0 1 = [] ∧
     bounds_for_vectors ([] : List Vec) = none ∧
     ∀ n : ℕ, 1 ≤ n →
       ∃ r, connection_layout (fun _ _ => 0)
         ⟨⟨Endpoint.Absolute ⟨0, 0⟩, Endpoint.Absolute ⟨2, 3⟩⟩, 1, n⟩ 1
         ⟨[], [], false⟩ = Except.ok r) := by
  have hs : (Endpoint.Absolute ⟨0, 0⟩ : Endpoint).resolve 1 ⟨[], [], true⟩ =
      Except.ok ⟨0, 0⟩ := by
    norm_num [Endpoint.resolve]
  have he : (Endpoint.Absolute ⟨2, 3⟩ : Endpoint).resolve 1 ⟨[], [], true⟩ =
      Except.ok ⟨2, 3⟩ := by
    norm_num [Endpoint.resolve]
  exact ⟨hs, he,
    connection_layout_segments_spec (fun _ _ => 0)
      ⟨Endpoint.Absolute ⟨0, 0⟩, Endpoint.Absolute ⟨2, 3⟩⟩ 1 1 ⟨[], [], false⟩
      ⟨0, 0⟩ ⟨2, 3⟩ hs he⟩
